import Mathlib

/-!
Verification of the grasshopper soft-navigation library.

The definitions below are a shallow embedding of the code in
grasshopper.js and src/index.ts: URLs are records of their string
components, documents and bodies are lists of element records, the
orchestration of a navigation attempt is a trace of events, and the
history coordinator is an explicit machine over a list of entries.
-/

namespace Grasshopper

/-- A URL, as the components the library inspects. -/
structure Url where
  origin : String
  pathname : String
  search : String
  hash : String
  deriving DecidableEq, Repr

/-- The href of a URL: concatenation of its components. -/
def Url.href (u : Url) : String := u.origin ++ u.pathname ++ u.search ++ u.hash

/-- samePage from index.ts: equal pathname and query. -/
def samePage (url otherUrl : Url) : Bool :=
  url.pathname == otherUrl.pathname && url.search == otherUrl.search

/-- Direction type from index.ts. -/
inductive Direction where
  | forward
  | back
  deriving DecidableEq, Repr

/-- NavigationTypeString from index.ts. -/
inductive NavigationTypeString where
  | push
  | replace
  | traverse
  deriving DecidableEq, Repr

/-! ## Eligibility: the element-level opt-out attribute (data-hop)

A DOM element is modelled by the chain of nodes from the element up
through its ancestors (self first); only the data-hop attribute value is
relevant. closest finds the nearest node carrying the attribute.
-/

/-- A DOM node as seen by the enabled check: its data-hop attribute, if present. -/
structure DomNode where
  dataHop : Option String
  deriving DecidableEq, Repr

/-- el.closest with selector [data-hop]: the nearest self-or-ancestor node
carrying the attribute. The chain lists the element first, then its ancestors. -/
def closestHop (chain : List DomNode) : Option DomNode :=
  chain.find? (fun n => n.dataHop.isSome)

/-- enabled(el) from grasshopper.js / index.ts:
not (closest carrier of data-hop has value "false"). -/
def enabled (chain : List DomNode) : Bool :=
  !(((closestHop chain).bind (fun n => n.dataHop)) == some "false")

/-- C9 counterexample input: an element with data-hop="" inside an ancestor
with data-hop="false". -/
def chainC9 : List DomNode := [⟨some ""⟩, ⟨some "false"⟩]

/-- C9 counterexample: an ancestor carries data-hop="false", yet the element is
still eligible for interception, because the nearer carrier (the element itself,
with a non-"false" value) shadows it. This refutes the claim that opt-out holds
exactly when the element or an ancestor carries the attribute with value "false". -/
theorem c9_counterexample :
    enabled chainC9 = true ∧ DomNode.mk (some "false") ∈ chainC9 ∧
      (chainC9.headD ⟨none⟩).dataHop ≠ some "false" := by
  decide

/-- C9 amended: an element opts out exactly when the nearest self-or-ancestor
node carrying the data-hop attribute has the exact value "false"; any other
value on that nearest carrier leaves the element eligible, and carriers
farther up the chain are shadowed. -/
theorem c9_nearest_marker (chain : List DomNode) :
    enabled chain = false ↔
      ∃ l1 n l2, chain = l1 ++ n :: l2 ∧ n.dataHop = some "false" ∧
        ∀ m ∈ l1, m.dataHop = none := by
  induction chain with
  | nil =>
    simp [enabled, closestHop]
  | cons a t ih =>
    cases ha : a.dataHop with
    | some v =>
      have hfind : closestHop (a :: t) = some a := by
        simp [closestHop, List.find?, ha]
      constructor
      · intro h
        have hv : v = "false" := by
          simp [enabled, hfind, ha] at h
          exact h
        exact ⟨[], a, t, rfl, by simp [ha, hv], by simp⟩
      · rintro ⟨l1, n, l2, hchain, hn, hl1⟩
        cases l1 with
        | nil =>
          simp at hchain
          have hna : n = a := hchain.1.symm
          simp [enabled, hfind, ha]
          have : a.dataHop = some "false" := hna ▸ hn
          rw [ha] at this
          exact (Option.some.inj this)
        | cons b l1t =>
          have hb : b = a := by
            have := congrArg (fun l => l.headD (DomNode.mk none)) hchain
            simpa using this.symm
          have : b.dataHop = none := hl1 b (by simp)
          rw [hb, ha] at this
          exact absurd this (by simp)
    | none =>
      have hfind : closestHop (a :: t) = closestHop t := by
        simp [closestHop, List.find?, ha]
      have hen : enabled (a :: t) = enabled t := by
        simp [enabled, hfind]
      rw [hen, ih]
      constructor
      · rintro ⟨l1, n, l2, hchain, hn, hl1⟩
        refine ⟨a :: l1, n, l2, by simp [hchain], hn, ?_⟩
        intro m hm
        rcases List.mem_cons.mp hm with hma | hml
        · rw [hma, ha]
        · exact hl1 m hml
      · rintro ⟨l1, n, l2, hchain, hn, hl1⟩
        cases l1 with
        | nil =>
          simp at hchain
          have : a.dataHop = some "false" := hchain.1 ▸ hn
          rw [ha] at this
          exact absurd this (by simp)
        | cons b l1t =>
          have htail : t = l1t ++ n :: l2 := by
            simpa using congrArg List.tail hchain
          refine ⟨l1t, n, l2, htail, hn, ?_⟩
          intro m hm
          exact hl1 m (by simp [hm])

/-! ## Content fetcher (grasshopper.js fetchHTML)

The external collaborators (network, DOM parser, event listeners) are an
environment record; fetchHTML is the pure control flow of the source
function, producing a result and the list of notifications and effects
it dispatched, in order.
-/

/-- MEDIA_TYPES from grasshopper.js. -/
def MEDIA_TYPES : List String := ["text/html", "application/xhtml+xml"]

/-- supportsMediaType from grasshopper.js. -/
def supportsMediaType (type : String) : Bool := MEDIA_TYPES.contains type

/-- Media types the platform DOMParser.parseFromString accepts; any other
type makes it throw a TypeError. -/
def domParserTypes : List String :=
  ["text/html", "text/xml", "application/xml", "application/xhtml+xml", "image/svg+xml"]

/-- Characters of the first field of a ";"-separated header value. -/
def takeUntilSemicolon : List Char → List Char
  | [] => []
  | c :: cs => if c = ';' then [] else c :: takeUntilSemicolon cs

/-- Strip leading and trailing whitespace from a character list. -/
def trimChars (l : List Char) : List Char :=
  ((l.dropWhile Char.isWhitespace).reverse.dropWhile Char.isWhitespace).reverse

/-- The media type computed from a content-type header value:
the first ";"-separated field, trimmed of surrounding whitespace. -/
def mediaTypeOf (contentType : String) : String :=
  String.mk (trimChars (takeUntilSemicolon contentType.data))

/-- A fetch Response, as the fields the library reads. contentType is the
content-type header, absent when the response carries no such header. -/
structure Response where
  redirected : Bool
  url : Url
  contentType : Option String
  deriving DecidableEq, Repr

/-- The parsed replacement document, reduced to the fact fetchHTML inspects:
whether it declares the feature active (meta name="hop" content="true"). -/
structure Doc where
  hopEnabled : Bool
  deriving DecidableEq, Repr

/-- canFallback from grasshopper.js: response?.redirected || !navEvent.formData. -/
def canFallback (response : Option Response) (hasFormData : Bool) : Bool :=
  ((response.map Response.redirected).getD false) || !hasFormData

/-- Outcomes of the external calls fetchHTML makes. -/
structure FetchEnv where
  beforeFetchAllowed : Bool
  fetchResult : Except String Response
  textResult : Except String String
  parsedDoc : Doc
  preloadCount : Nat
  deriving Repr

/-- Notifications and effects dispatched by fetchHTML, in order. -/
inductive FetchEvent where
  | beforeFetch
  | fetchLoad
  | fetchErrorEvent (msg : String)
  | fetchEnd
  | fallbackNavigate (href : String)
  | suspendPreloads
  deriving DecidableEq, Repr

/-- The value fetchHTML resolves with: a response/document pair, an error
record, or undefined (cancelled before the fetch, or after a fallback). -/
inductive FetchHTMLResult where
  | success (response : Response) (doc : Doc)
  | errored (msg : String)
  | empty
  deriving DecidableEq, Repr

/-- The try block of fetchHTML: ok carries the events so far and the return
value; error carries the events so far and the thrown error. -/
def fetchHTMLcore (env : FetchEnv) (toUrl : Url) (hasFormData : Bool) :
    Except (List FetchEvent × String) (List FetchEvent × FetchHTMLResult) :=
  if !env.beforeFetchAllowed then
    Except.ok ([FetchEvent.beforeFetch], FetchHTMLResult.empty)
  else
    match env.fetchResult with
    | Except.error e => Except.error ([FetchEvent.beforeFetch], e)
    | Except.ok response =>
      match response.contentType with
      | none =>
        Except.error ([FetchEvent.beforeFetch], "TypeError: null content-type")
      | some contentType =>
        let mediaType := mediaTypeOf contentType
        if canFallback (some response) hasFormData && !supportsMediaType mediaType then
          Except.ok ([FetchEvent.beforeFetch, FetchEvent.fallbackNavigate response.url.href],
            FetchHTMLResult.empty)
        else if response.redirected && !(response.url.origin == toUrl.origin) then
          Except.ok ([FetchEvent.beforeFetch, FetchEvent.fallbackNavigate response.url.href],
            FetchHTMLResult.empty)
        else
          match env.textResult with
          | Except.error e => Except.error ([FetchEvent.beforeFetch], e)
          | Except.ok _text =>
            if mediaType ∉ domParserTypes then
              Except.error ([FetchEvent.beforeFetch], "TypeError: unsupported parse type")
            else
              let doc := env.parsedDoc
              if canFallback (some response) hasFormData && !doc.hopEnabled then
                Except.ok
                  ([FetchEvent.beforeFetch, FetchEvent.fallbackNavigate response.url.href],
                  FetchHTMLResult.empty)
              else
                Except.ok ([FetchEvent.beforeFetch] ++
                  (if env.preloadCount ≠ 0 then [FetchEvent.suspendPreloads] else []) ++
                  [FetchEvent.fetchLoad], FetchHTMLResult.success response doc)

/-- fetchHTML from grasshopper.js: the try block wrapped by the catch
(dispatching the fetch-error notification with the thrown error) and the
finally (always dispatching fetch-end). -/
def fetchHTML (env : FetchEnv) (toUrl : Url) (hasFormData : Bool) :
    FetchHTMLResult × List FetchEvent :=
  match fetchHTMLcore env toUrl hasFormData with
  | Except.ok (evs, r) => (r, evs ++ [FetchEvent.fetchEnd])
  | Except.error (evs, e) =>
    (FetchHTMLResult.errored e, evs ++ [FetchEvent.fetchErrorEvent e, FetchEvent.fetchEnd])

/-- C3: a thrown network fetch dispatches the fetch-error notification carrying
the error, still dispatches fetch-end (which is dispatched on every fetch
attempt regardless of outcome), and the attempt yields no document, hence no
DOM mutation and no fallback navigation. -/
theorem c3_network_error (env : FetchEnv) (toUrl : Url) (hasFormData : Bool) (e : String)
    (h1 : env.beforeFetchAllowed = true) (h2 : env.fetchResult = Except.error e) :
    fetchHTML env toUrl hasFormData =
      (FetchHTMLResult.errored e,
        [FetchEvent.beforeFetch, FetchEvent.fetchErrorEvent e, FetchEvent.fetchEnd])
    ∧ (∀ response doc,
        (fetchHTML env toUrl hasFormData).1 ≠ FetchHTMLResult.success response doc)
    ∧ (∀ env2 toUrl2 b2, FetchEvent.fetchEnd ∈ (fetchHTML env2 toUrl2 b2).2) := by
  have hmain : fetchHTML env toUrl hasFormData =
      (FetchHTMLResult.errored e,
        [FetchEvent.beforeFetch, FetchEvent.fetchErrorEvent e, FetchEvent.fetchEnd]) := by
    simp [fetchHTML, fetchHTMLcore, h1, h2]
  refine ⟨hmain, ?_, ?_⟩
  · intro response doc
    rw [hmain]
    simp
  · intro env2 toUrl2 b2
    unfold fetchHTML
    rcases hc : fetchHTMLcore env2 toUrl2 b2 with ⟨evs, e2⟩ | ⟨evs, r2⟩ <;> simp

/-- A destination URL used by the C3 witness. -/
def toC3 : Url := { origin := "https://example.test", pathname := "/two", search := "", hash := "" }

/-- Environment for the C3 witness: the network fetch throws. -/
def envC3 : FetchEnv :=
  { beforeFetchAllowed := true, fetchResult := Except.error "net down",
    textResult := Except.ok "", parsedDoc := { hopEnabled := true }, preloadCount := 0 }

/-- C3 witness. -/
theorem c3_network_error_witness :
    (envC3.beforeFetchAllowed = true ∧ envC3.fetchResult = Except.error "net down")
    ∧ (fetchHTML envC3 toC3 false =
        (FetchHTMLResult.errored "net down",
          [FetchEvent.beforeFetch, FetchEvent.fetchErrorEvent "net down",
            FetchEvent.fetchEnd])
      ∧ (∀ response doc,
          (fetchHTML envC3 toC3 false).1 ≠ FetchHTMLResult.success response doc)
      ∧ (∀ env2 toUrl2 b2, FetchEvent.fetchEnd ∈ (fetchHTML env2 toUrl2 b2).2)) :=
  ⟨⟨rfl, rfl⟩, c3_network_error envC3 toC3 false "net down" rfl rfl⟩

/-- Destination URL used by the C10 witness. -/
def toC10 : Url := { origin := "https://example.test", pathname := "/page", search := "", hash := "" }

/-- Response with no content-type header, for C10. -/
def respC10 : Response := { redirected := false, url := toC10, contentType := none }

/-- Environment for the C10 witness: the response carries no content-type
header. -/
def envC10 : FetchEnv :=
  { beforeFetchAllowed := true, fetchResult := Except.ok respC10,
    textResult := Except.ok "", parsedDoc := { hopEnabled := true }, preloadCount := 0 }

/-- C10: in grasshopper.js fetchHTML, a response with no content-type header
takes the thrown-error path (reading split of a null header throws): the
fetch-error and fetch-end notifications are dispatched, no document is
produced (no swap), and no fallback navigation is issued. -/
theorem c10_missing_content_type (env : FetchEnv) (toUrl : Url) (hasFormData : Bool)
    (r : Response) (h1 : env.beforeFetchAllowed = true)
    (h2 : env.fetchResult = Except.ok r) (h3 : r.contentType = none) :
    fetchHTML env toUrl hasFormData =
      (FetchHTMLResult.errored "TypeError: null content-type",
        [FetchEvent.beforeFetch, FetchEvent.fetchErrorEvent "TypeError: null content-type",
          FetchEvent.fetchEnd])
    ∧ (∀ href, FetchEvent.fallbackNavigate href ∉ (fetchHTML env toUrl hasFormData).2)
    ∧ (∀ response doc,
        (fetchHTML env toUrl hasFormData).1 ≠ FetchHTMLResult.success response doc) := by
  have hmain : fetchHTML env toUrl hasFormData =
      (FetchHTMLResult.errored "TypeError: null content-type",
        [FetchEvent.beforeFetch, FetchEvent.fetchErrorEvent "TypeError: null content-type",
          FetchEvent.fetchEnd]) := by
    simp [fetchHTML, fetchHTMLcore, h1, h2, h3]
  refine ⟨hmain, ?_, ?_⟩
  · intro href
    rw [hmain]
    simp
  · intro response doc
    rw [hmain]
    simp

/-- C10 witness. -/
theorem c10_missing_content_type_witness :
    (envC10.beforeFetchAllowed = true ∧ envC10.fetchResult = Except.ok respC10
      ∧ respC10.contentType = none)
    ∧ (fetchHTML envC10 toC10 false =
        (FetchHTMLResult.errored "TypeError: null content-type",
          [FetchEvent.beforeFetch,
            FetchEvent.fetchErrorEvent "TypeError: null content-type",
            FetchEvent.fetchEnd])
      ∧ (∀ href, FetchEvent.fallbackNavigate href ∉ (fetchHTML envC10 toC10 false).2)
      ∧ (∀ response doc,
          (fetchHTML envC10 toC10 false).1 ≠ FetchHTMLResult.success response doc)) :=
  ⟨⟨rfl, rfl, rfl⟩, c10_missing_content_type envC10 toC10 false respC10 rfl rfl rfl⟩

/-! ## C2: fallback policy for unhandleable responses -/

/-- Every library-supported media type is accepted by the platform parser. -/
theorem supports_subset_domParser (t : String) (h : supportsMediaType t = true) :
    t ∈ domParserTypes := by
  have hmem : t ∈ MEDIA_TYPES := by
    simpa [supportsMediaType] using h
  rcases (by simpa [MEDIA_TYPES] using hmem : t = "text/html" ∨ t = "application/xhtml+xml")
    with h1 | h1 <;> simp [domParserTypes, h1]

/-- C2 final URL after redirect (counterexample). -/
def urlFinalC2 : Url := { origin := "https://example.test", pathname := "/final", search := "", hash := "" }

/-- C2 destination (counterexample). -/
def toC2 : Url := { origin := "https://example.test", pathname := "/form", search := "", hash := "" }

/-- C2 counterexample response: redirected, JSON. -/
def respC2 : Response := { redirected := true, url := urlFinalC2, contentType := some "application/json" }

/-- C2 counterexample environment. -/
def envC2 : FetchEnv :=
  { beforeFetchAllowed := true, fetchResult := Except.ok respC2,
    textResult := Except.ok "", parsedDoc := { hopEnabled := false }, preloadCount := 0 }

/-- C2 counterexample: a body-bearing navigation (form submission) whose
redirected response has a non-HTML media type DOES trigger a fallback
navigation, because canFallback is redirected OR no-body. This refutes the
claim that a navigation carrying a body never attempts a fallback. -/
theorem c2_counterexample :
    supportsMediaType (mediaTypeOf "application/json") = false ∧
      FetchEvent.fallbackNavigate urlFinalC2.href ∈ (fetchHTML envC2 toC2 true).2 := by
  have hmt : supportsMediaType (mediaTypeOf "application/json") = false := by decide
  refine ⟨hmt, ?_⟩
  have : fetchHTML envC2 toC2 true =
      (FetchHTMLResult.empty,
        [FetchEvent.beforeFetch, FetchEvent.fallbackNavigate urlFinalC2.href,
          FetchEvent.fetchEnd]) := by
    simp [fetchHTML, fetchHTMLcore, envC2, respC2, canFallback, hmt]
  rw [this]
  simp

/-- C2 amended: a response whose media type is not one of the two HTML media
types triggers a fallback navigation to the final response URL whenever the
response was redirected or the navigation carries no body; only when the
navigation carries a body AND the response was not redirected is the fallback
suppressed (then no fallback navigation is ever dispatched by the fetch).
Likewise, for an HTML response whose parsed document does not declare the
feature active, the fallback occurs exactly when canFallback holds
(redirected or no body). -/
theorem c2_fallback_policy (env : FetchEnv) (toUrl : Url) (hasFormData : Bool)
    (r : Response) (ct : String)
    (h1 : env.beforeFetchAllowed = true) (h2 : env.fetchResult = Except.ok r)
    (h3 : r.contentType = some ct)
    (h4 : supportsMediaType (mediaTypeOf ct) = false) :
    ((r.redirected = true ∨ hasFormData = false) →
      fetchHTML env toUrl hasFormData =
        (FetchHTMLResult.empty,
          [FetchEvent.beforeFetch, FetchEvent.fallbackNavigate r.url.href,
            FetchEvent.fetchEnd]))
    ∧ (r.redirected = false → hasFormData = true →
        ∀ href, FetchEvent.fallbackNavigate href ∉ (fetchHTML env toUrl hasFormData).2)
    ∧ (∀ env2 toUrl2 b2 r2 ct2 text2,
        env2.beforeFetchAllowed = true → env2.fetchResult = Except.ok r2 →
        r2.contentType = some ct2 → supportsMediaType (mediaTypeOf ct2) = true →
        (r2.redirected = true → r2.url.origin = toUrl2.origin) →
        env2.textResult = Except.ok text2 → env2.parsedDoc.hopEnabled = false →
        ((canFallback (some r2) b2 = true →
            fetchHTML env2 toUrl2 b2 =
              (FetchHTMLResult.empty,
                [FetchEvent.beforeFetch, FetchEvent.fallbackNavigate r2.url.href,
                  FetchEvent.fetchEnd]))
          ∧ (canFallback (some r2) b2 = false →
              ∀ href, FetchEvent.fallbackNavigate href ∉ (fetchHTML env2 toUrl2 b2).2))) := by
  refine ⟨?_, ?_, ?_⟩
  · intro hcf
    have hc : canFallback (some r) hasFormData = true := by
      cases hcf with
      | inl hr => simp [canFallback, hr]
      | inr hb => simp [canFallback, hb]
    simp [fetchHTML, fetchHTMLcore, h1, h2, h3, hc, h4]
  · intro hr hb href
    have hc : canFallback (some r) hasFormData = false := by
      simp [canFallback, hr, hb]
    rcases htext : env.textResult with e | text
    · simp [fetchHTML, fetchHTMLcore, h1, h2, h3, hc, hr, htext]
    · by_cases hparse : mediaTypeOf ct ∈ domParserTypes
      · by_cases hpre : env.preloadCount = 0 <;>
          simp [fetchHTML, fetchHTMLcore, h1, h2, h3, hc, hr, htext, hparse, hpre]
      · simp [fetchHTML, fetchHTMLcore, h1, h2, h3, hc, hr, htext, hparse]
  · intro env2 toUrl2 b2 r2 ct2 text2 g1 g2 g3 g4 g5 g6 g7
    have hparse2 : mediaTypeOf ct2 ∈ domParserTypes :=
      supports_subset_domParser _ g4
    have hnored : (r2.redirected && !(r2.url.origin == toUrl2.origin)) = false := by
      rcases hred : r2.redirected with _ | _
      · simp
      · simp [g5 hred]
    constructor
    · intro hc
      simp [fetchHTML, fetchHTMLcore, g1, g2, g3, g4, hnored, g6, hparse2, g7, hc]
    · intro hc href
      by_cases hpre : env2.preloadCount = 0 <;>
        simp [fetchHTML, fetchHTMLcore, g1, g2, g3, g4, hnored, g6, hparse2, g7, hc, hpre]

/-- C2 witness: instantiates the amended fallback policy at the counterexample
environment (redirected JSON response of a form submission). -/
theorem c2_fallback_policy_witness :
    (envC2.beforeFetchAllowed = true ∧ envC2.fetchResult = Except.ok respC2
      ∧ respC2.contentType = some "application/json"
      ∧ supportsMediaType (mediaTypeOf "application/json") = false)
    ∧ ((respC2.redirected = true ∨ true = false) →
        fetchHTML envC2 toC2 true =
          (FetchHTMLResult.empty,
            [FetchEvent.beforeFetch, FetchEvent.fallbackNavigate respC2.url.href,
              FetchEvent.fetchEnd])) := by
  refine ⟨⟨rfl, rfl, rfl, by decide⟩, ?_⟩
  intro h
  exact (c2_fallback_policy envC2 toC2 true respC2 "application/json" rfl rfl rfl
    (by decide)).1 (Or.inl rfl)

/-! ## C4: redirect handling -/

/-- redirectTo from the precommit handler: response.redirected AND response.url
(the final URL when redirected, nothing otherwise). -/
def redirectTo (r : Response) : Option Url :=
  if r.redirected then some r.url else none

/-- The destination the precommit handler commits to:
redirectTo OR the original navigation destination. -/
def effectiveDestination (r : Response) (navDest : Url) : Url :=
  match redirectTo r with
  | some u => u
  | none => navDest

/-- C4: when the response indicates a redirect, the effective destination is
recomputed from the final response URL; and when the redirect crosses origin,
fetchHTML treats the response as not handleable and issues a fallback full
navigation to the final URL, producing no document. -/
theorem c4_redirect (env : FetchEnv) (toUrl : Url) (hasFormData : Bool)
    (r : Response) (ct : String)
    (h1 : env.beforeFetchAllowed = true) (h2 : env.fetchResult = Except.ok r)
    (h3 : r.contentType = some ct)
    (h4 : supportsMediaType (mediaTypeOf ct) = true)
    (h5 : r.redirected = true) :
    effectiveDestination r toUrl = r.url
    ∧ (r.url.origin ≠ toUrl.origin →
        fetchHTML env toUrl hasFormData =
          (FetchHTMLResult.empty,
            [FetchEvent.beforeFetch, FetchEvent.fallbackNavigate r.url.href,
              FetchEvent.fetchEnd])) := by
  constructor
  · simp [effectiveDestination, redirectTo, h5]
  · intro hx
    simp [fetchHTML, fetchHTMLcore, h1, h2, h3, h4, h5, hx]

/-- Cross-origin final URL for the C4 witness. -/
def urlCrossC4 : Url := { origin := "https://other.test", pathname := "/final", search := "", hash := "" }

/-- Destination for the C4 witness. -/
def toC4 : Url := { origin := "https://example.test", pathname := "/page", search := "", hash := "" }

/-- Redirected HTML response landing on another origin, for C4. -/
def respC4 : Response := { redirected := true, url := urlCrossC4, contentType := some "text/html" }

/-- Environment for the C4 witness. -/
def envC4 : FetchEnv :=
  { beforeFetchAllowed := true, fetchResult := Except.ok respC4,
    textResult := Except.ok "", parsedDoc := { hopEnabled := true }, preloadCount := 0 }

/-- C4 witness. -/
theorem c4_redirect_witness :
    (envC4.beforeFetchAllowed = true ∧ envC4.fetchResult = Except.ok respC4
      ∧ respC4.contentType = some "text/html"
      ∧ supportsMediaType (mediaTypeOf "text/html") = true
      ∧ respC4.redirected = true ∧ respC4.url.origin ≠ toC4.origin)
    ∧ (effectiveDestination respC4 toC4 = respC4.url
      ∧ fetchHTML envC4 toC4 false =
          (FetchHTMLResult.empty,
            [FetchEvent.beforeFetch, FetchEvent.fallbackNavigate respC4.url.href,
              FetchEvent.fetchEnd])) := by
  have hne : respC4.url.origin ≠ toC4.origin := by decide
  have h := c4_redirect envC4 toC4 false respC4 "text/html" rfl rfl rfl (by decide) rfl
  exact ⟨⟨rfl, rfl, rfl, by decide, rfl, hne⟩, h.1, h.2 hne⟩

/-! ## C8: tracked elements (data-hop-track="reload") -/

/-- An element as seen by trackedElementsChanged: its full structure (standing
for isEqualNode equality) and its data-hop-track attribute. -/
structure TElem where
  html : String
  track : Option String
  deriving DecidableEq, Repr

/-- The elements a document query for data-hop-track="reload" returns. -/
def trackedEls (doc : List TElem) : List TElem :=
  doc.filter (fun el => el.track == some "reload")

/-- trackedElementsChanged from grasshopper.js: some tracked element of the
current document has no isEqualNode counterpart among the tracked elements of
the new document. -/
def trackedElementsChanged (oldDoc newDoc : List TElem) : Bool :=
  (trackedEls oldDoc).any (fun o => !((trackedEls newDoc).any (fun n => n == o)))

/-- The navigate handler reload gate:
canFallback(response, ev) AND trackedElementsChanged(doc) forces
navigation.reload instead of the soft swap. -/
def reloadDecision (response : Option Response) (hasFormData : Bool)
    (oldDoc newDoc : List TElem) : Bool :=
  canFallback response hasFormData && trackedElementsChanged oldDoc newDoc

/-- Old document for the C8 counterexample: one tracked stylesheet. -/
def trackOldC8 : List TElem := [{ html := "link v1", track := some "reload" }]

/-- New document for the C8 counterexample: tracked stylesheet gone. -/
def trackNewC8 : List TElem := []

/-- Unredirected response for the C8 counterexample. -/
def respC8 : Response :=
  { redirected := false,
    url := { origin := "https://example.test", pathname := "/track-form", search := "", hash := "" },
    contentType := some "text/html" }

/-- C8 counterexample: the tracked elements of the two documents mismatch, yet
for a body-bearing (form POST) navigation with an unredirected response the
handler does NOT reload — the soft swap proceeds. This refutes the claim that
a tracked-element mismatch forces a full page reload. -/
theorem c8_counterexample :
    trackedElementsChanged trackOldC8 trackNewC8 = true ∧
      reloadDecision (some respC8) true trackOldC8 trackNewC8 = false := by
  decide

/-- C8 amended: a tracked ("reload") element of the old document with no
structurally equal tracked element in the new document forces a full reload
exactly when the response was redirected or the navigation carries no body;
for a body-bearing navigation with an unredirected response the soft swap
proceeds despite the mismatch. (Only old-document tracked elements are
checked; elements tracked only in the new document are not compared.) -/
theorem c8_reload_policy (response : Option Response) (hasFormData : Bool)
    (oldDoc newDoc : List TElem) :
    reloadDecision response hasFormData oldDoc newDoc = true ↔
      (((response.map Response.redirected).getD false = true ∨ hasFormData = false)
        ∧ ∃ o ∈ trackedEls oldDoc, ∀ n ∈ trackedEls newDoc, n ≠ o) := by
  simp only [reloadDecision, Bool.and_eq_true, canFallback, Bool.or_eq_true,
    Bool.not_eq_true', trackedElementsChanged, List.any_eq_true]
  constructor
  · rintro ⟨hcf, o, ho, hno⟩
    refine ⟨hcf, o, ho, ?_⟩
    intro n hn hne
    have : (trackedEls newDoc).any (fun x => x == o) = true :=
      List.any_eq_true.mpr ⟨n, hn, by simp [hne]⟩
    rw [this] at hno
    exact absurd hno (by simp)
  · rintro ⟨hcf, o, ho, hno⟩
    refine ⟨hcf, o, ho, ?_⟩
    rcases hany : (trackedEls newDoc).any (fun x => x == o) with _ | _
    · simp
    · rcases List.any_eq_true.mp hany with ⟨n, hn, hne⟩
      exact absurd (by simpa using hne) (hno n hn)

/-! ## C5: History and scroll coordinator (index.ts)

History is a machine: the platform entry stack (each entry a URL and an
optional library State), the current entry position, and the module-level
currentHistoryIndex variable.
-/

/-- State from index.ts: per-entry index and scroll offsets. -/
structure State where
  index : Nat
  scrollX : Int
  scrollY : Int
  deriving DecidableEq, Repr

/-- One platform history entry: its URL and (possibly absent) library state. -/
structure HistEntry where
  url : String
  state : Option State
  deriving DecidableEq, Repr

/-- The history machine: entry stack, current position, and the module
variable currentHistoryIndex. -/
structure HistoryMachine where
  entries : List HistEntry
  pos : Nat
  currentHistoryIndex : Nat
  deriving DecidableEq, Repr

/-- location.href of the machine. -/
def currentHref (m : HistoryMachine) : String :=
  ((m.entries.get? m.pos).map HistEntry.url).getD ""

/-- history.state of the machine. -/
def stateAt (m : HistoryMachine) : Option State :=
  (m.entries.get? m.pos).bind HistEntry.state

/-- history.replaceState: overwrite the current entry in place. -/
def replaceState (m : HistoryMachine) (st : Option State) (url : String) : HistoryMachine :=
  { m with entries := m.entries.set m.pos { url := url, state := st } }

/-- history.pushState: drop the forward entries, append a new entry, move to it. -/
def pushState (m : HistoryMachine) (st : Option State) (url : String) : HistoryMachine :=
  { m with entries := m.entries.take (m.pos + 1) ++ [{ url := url, state := st }],
           pos := m.pos + 1 }

/-- updateHistory from index.ts hop: only for a changed URL outside traversal;
replace passes the existing history.state through unchanged, push stores a
fresh state whose index is the incremented currentHistoryIndex. -/
def updateHistory (m : HistoryMachine) (navigationType : NavigationTypeString)
    (toHref : String) (historyState : Option State) : HistoryMachine :=
  if toHref ≠ currentHref m ∧ historyState = none then
    if navigationType = NavigationTypeString.replace then
      replaceState m (stateAt m) toHref
    else
      let m2 : HistoryMachine := { m with currentHistoryIndex := m.currentHistoryIndex + 1 }
      pushState m2 (some { index := m2.currentHistoryIndex, scrollX := 0, scrollY := 0 }) toHref
  else m

/-- The popstate listener from index.ts start: a traversal to entry position p.
Entries without library state are ignored (direction not computed); otherwise
direction is forward exactly when the destination index exceeds the recorded
one, and the recorded index is updated to match. -/
def popstateStep (m : HistoryMachine) (p : Nat) : HistoryMachine × Option Direction :=
  match (m.entries.get? p).bind HistEntry.state with
  | none => ({ m with pos := p }, none)
  | some st =>
    ({ m with pos := p, currentHistoryIndex := st.index },
      some (if st.index > m.currentHistoryIndex then Direction.forward else Direction.back))

/-- Helper: reading the appended entry of a pushState. -/
theorem get_take_append (l : List HistEntry) (i : Nat) (x : HistEntry)
    (h : i < l.length) : (l.take (i + 1) ++ [x]).get? (i + 1) = some x := by
  have hlen : (l.take (i + 1)).length = i + 1 := by
    rw [List.length_take]
    exact Nat.min_eq_left (Nat.succ_le_of_lt h)
  rw [List.get?_append_right (by rw [hlen])]
  rw [hlen]
  simp

/-- Helper: reading the overwritten entry of a set. -/
theorem get_set_self (l : List HistEntry) (i : Nat) (x : HistEntry)
    (h : i < l.length) : (l.set i x).get? i = some x := by
  rw [List.get?_eq_get (by simpa using h)]
  simp

/-- C5: a push creates a new entry whose stored index is the previous
currentHistoryIndex incremented by one (and records the new index); a replace
overwrites the current entry with the existing state, preserving its index; on
traversal, the reported direction is forward exactly when the destination
entry's stored index exceeds the previously recorded index, otherwise back,
and the recorded index is updated to the destination's index. -/
theorem c5_history_index (m : HistoryMachine) (toHref : String)
    (hhref : toHref ≠ currentHref m) (hpos : m.pos < m.entries.length) :
    ((updateHistory m NavigationTypeString.push toHref none).entries.get? (m.pos + 1) =
        some { url := toHref,
               state := some { index := m.currentHistoryIndex + 1, scrollX := 0, scrollY := 0 } }
      ∧ (updateHistory m NavigationTypeString.push toHref none).currentHistoryIndex =
          m.currentHistoryIndex + 1
      ∧ (updateHistory m NavigationTypeString.push toHref none).pos = m.pos + 1)
    ∧ ((updateHistory m NavigationTypeString.replace toHref none).entries.get? m.pos =
        some { url := toHref, state := stateAt m }
      ∧ (updateHistory m NavigationTypeString.replace toHref none).currentHistoryIndex =
          m.currentHistoryIndex
      ∧ (updateHistory m NavigationTypeString.replace toHref none).pos = m.pos)
    ∧ (∀ p e st, m.entries.get? p = some e → e.state = some st →
        (((popstateStep m p).2 = some Direction.forward ↔ m.currentHistoryIndex < st.index)
          ∧ ((popstateStep m p).2 = some Direction.back ↔ ¬ m.currentHistoryIndex < st.index)
          ∧ (popstateStep m p).1.currentHistoryIndex = st.index)) := by
  refine ⟨?_, ?_, ?_⟩
  · have hup : updateHistory m NavigationTypeString.push toHref none =
        pushState { m with currentHistoryIndex := m.currentHistoryIndex + 1 }
          (some { index := m.currentHistoryIndex + 1, scrollX := 0, scrollY := 0 }) toHref := by
      simp [updateHistory, hhref]
    rw [hup]
    refine ⟨?_, rfl, rfl⟩
    exact get_take_append m.entries m.pos _ hpos
  · have hup : updateHistory m NavigationTypeString.replace toHref none =
        replaceState m (stateAt m) toHref := by
      simp [updateHistory, hhref]
    rw [hup]
    refine ⟨?_, rfl, rfl⟩
    exact get_set_self m.entries m.pos _ hpos
  · intro p e st hget hst
    have hbind : (m.entries.get? p).bind HistEntry.state = some st := by
      rw [hget]
      exact hst
    have hstep : popstateStep m p =
        ({ m with pos := p, currentHistoryIndex := st.index },
          some (if st.index > m.currentHistoryIndex then Direction.forward
                else Direction.back)) := by
      unfold popstateStep
      rw [hbind]
    rw [hstep]
    rcases Nat.lt_or_ge m.currentHistoryIndex st.index with hlt | hge
    · simp [hlt]
    · have hnlt : ¬ st.index > m.currentHistoryIndex := Nat.not_lt.mpr hge
      simp [hnlt]

/-- Machine for the C5 witness: one library-owned entry, index 0. -/
def machC5 : HistoryMachine :=
  { entries := [{ url := "/", state := some { index := 0, scrollX := 0, scrollY := 0 } }],
    pos := 0, currentHistoryIndex := 0 }

/-- C5 witness. -/
theorem c5_history_index_witness :
    ("/two" ≠ currentHref machC5 ∧ machC5.pos < machC5.entries.length)
    ∧ ((updateHistory machC5 NavigationTypeString.push "/two" none).entries.get? 1 =
        some { url := "/two", state := some { index := 1, scrollX := 0, scrollY := 0 } }
      ∧ (updateHistory machC5 NavigationTypeString.push "/two" none).currentHistoryIndex = 1) := by
  have hhref : "/two" ≠ currentHref machC5 := by decide
  have hpos : machC5.pos < machC5.entries.length := by decide
  have h := c5_history_index machC5 "/two" hhref hpos
  exact ⟨⟨hhref, hpos⟩, h.1.1, h.1.2.1⟩

/-! ## C1 and C6: the hop orchestration trace (index.ts hop)

hop is modelled as the ordered trace of its effects and suspension points,
parametrised by the outcomes of its external calls.
-/

/-- The effects and suspension points of one run of hop, in program order. -/
inductive HopEvent where
  | abortPrevious
  | installController
  | fullNavigate (href : String)
  | saveScroll
  | sendConfig
  | suspendFetch
  | suspendPreload
  | suspendPrevTransition
  | setDirectionAttr
  | startTransition
  | swapDom
  | historyScrollUpdate
  deriving DecidableEq, Repr

/-- The inputs of one run of hop: whether a previous attempt's controller
exists, the outcome of the eligibility checks, the navigation parameters, and
the outcomes of the external calls. -/
structure HopParams where
  hasPrevController : Bool
  enabledDoc : Bool
  sameOrigin : Bool
  fromUrl : Url
  toUrl : Url
  hasBody : Bool
  direction : Direction
  isTraverse : Bool
  configAllowed : Bool
  fetchSucceeds : Bool
  hasPreloads : Bool
  deriving DecidableEq, Repr

/-- The hash-only shortcut condition in hop: same page, no body, and either a
non-back navigation with a destination fragment or a back navigation from a
URL with a fragment. -/
def hopSkipsFetch (p : HopParams) : Bool :=
  samePage p.fromUrl p.toUrl && !p.hasBody &&
    ((!(decide (p.direction = Direction.back)) && !(p.toUrl.hash == "")) ||
      (decide (p.direction = Direction.back) && !(p.fromUrl.hash == "")))

/-- The trace of hop after the controller swap: eligibility check, scroll
save, hash shortcut, config notification, fetch, transition and swap. -/
def hopTraceMain (p : HopParams) : List HopEvent :=
  if !p.enabledDoc || !p.sameOrigin then [HopEvent.fullNavigate p.toUrl.href]
  else
    (if p.isTraverse then [] else [HopEvent.saveScroll]) ++
    (if hopSkipsFetch p then [HopEvent.historyScrollUpdate]
     else if !p.configAllowed then [HopEvent.sendConfig]
     else
       [HopEvent.sendConfig, HopEvent.suspendFetch] ++
       (if !p.fetchSucceeds then [HopEvent.fullNavigate p.toUrl.href]
        else
          (if p.hasPreloads then [HopEvent.suspendPreload] else []) ++
          (if p.isTraverse then [HopEvent.saveScroll] else []) ++
          [HopEvent.suspendPrevTransition, HopEvent.setDirectionAttr,
            HopEvent.startTransition, HopEvent.swapDom, HopEvent.historyScrollUpdate]))

/-- The full trace of hop: the previous controller is aborted first (when one
exists), then the new controller is installed, then everything else. -/
def hopTrace (p : HopParams) : List HopEvent :=
  (if p.hasPrevController then [HopEvent.abortPrevious] else []) ++
    HopEvent.installController :: hopTraceMain p

/-- The events at which hop suspends (awaits). -/
def isSuspend : HopEvent → Bool
  | HopEvent.suspendFetch => true
  | HopEvent.suspendPreload => true
  | HopEvent.suspendPrevTransition => true
  | _ => false

/-- Orchestrator attempt-slot state: ids handed out so far, the current
attempt, and the cancelled attempts. -/
structure OrchState where
  nextId : Nat
  current : Option Nat
  cancelled : List Nat
  deriving DecidableEq, Repr

/-- Initial orchestrator state. -/
def OrchState.init : OrchState := { nextId := 0, current := none, cancelled := [] }

/-- Starting a navigation attempt: the current attempt (if any) is cancelled,
then the fresh attempt is installed as current. -/
def startAttempt (s : OrchState) : OrchState :=
  { nextId := s.nextId + 1,
    current := some s.nextId,
    cancelled := match s.current with
      | some c => c :: s.cancelled
      | none => s.cancelled }

/-- The orchestrator state after n attempts have started. -/
def afterStarts : Nat → OrchState
  | 0 => OrchState.init
  | n + 1 => startAttempt (afterStarts n)

/-- After n starts, n ids have been handed out. -/
theorem afterStarts_nextId (n : Nat) : (afterStarts n).nextId = n := by
  induction n with
  | zero => rfl
  | succ k ih => simp [afterStarts, startAttempt, ih]

/-- After n+1 starts, the current attempt is the newest id n. -/
theorem afterStarts_current (n : Nat) : (afterStarts (n + 1)).current = some n := by
  simp [afterStarts, startAttempt, afterStarts_nextId]

/-- After n+1 starts, every older attempt is cancelled. -/
theorem afterStarts_cancelled (n : Nat) :
    ∀ k, k < n → k ∈ (afterStarts (n + 1)).cancelled := by
  induction n with
  | zero => intro k hk; exact absurd hk (Nat.not_lt_zero k)
  | succ j ih =>
    intro k hk
    have hcur : (afterStarts (j + 1)).current = some j := afterStarts_current j
    have hstep : (afterStarts (j + 2)).cancelled = j :: (afterStarts (j + 1)).cancelled := by
      show (startAttempt (afterStarts (j + 1))).cancelled = _
      simp [startAttempt, hcur]
    rw [hstep]
    rcases Nat.lt_succ_iff_lt_or_eq.mp hk with hlt | heq
    · exact List.mem_cons_of_mem j (ih k hlt)
    · rw [heq]; exact List.mem_cons_self j _

/-- C1: when a previous attempt exists, its cancellation token is aborted as
the very first action of hop, strictly before any of the new attempt's
suspension points (network fetch, stylesheet preload, transition wait); and in
the attempt machine, after any number of starts the newest attempt is the only
current one and every earlier attempt has been cancelled. -/
theorem c1_cancel_before_suspend (p : HopParams) (hp : p.hasPrevController = true)
    (n : Nat) :
    ((hopTrace p).head? = some HopEvent.abortPrevious
      ∧ ∀ i e, (hopTrace p).get? i = some e → isSuspend e = true → 0 < i)
    ∧ ((afterStarts (n + 1)).current = some n
      ∧ ∀ k, k < n → k ∈ (afterStarts (n + 1)).cancelled) := by
  have htr : hopTrace p = HopEvent.abortPrevious :: HopEvent.installController ::
      hopTraceMain p := by
    simp [hopTrace, hp]
  refine ⟨⟨?_, ?_⟩, afterStarts_current n, afterStarts_cancelled n⟩
  · rw [htr]; rfl
  · intro i e hget hsus
    cases i with
    | zero =>
      rw [htr] at hget
      simp at hget
      rw [← hget] at hsus
      exact absurd hsus (by simp [isSuspend])
    | succ j => exact Nat.succ_pos j

/-- Parameters for the C1 witness: a second navigation begins while a previous
controller exists; fetch would succeed after suspension. -/
def pC1 : HopParams :=
  { hasPrevController := true, enabledDoc := true, sameOrigin := true,
    fromUrl := { origin := "https://example.test", pathname := "/", search := "", hash := "" },
    toUrl := { origin := "https://example.test", pathname := "/two", search := "", hash := "" },
    hasBody := false, direction := Direction.forward, isTraverse := false,
    configAllowed := true, fetchSucceeds := true, hasPreloads := true }

/-- C1 witness. -/
theorem c1_cancel_before_suspend_witness :
    pC1.hasPrevController = true
    ∧ (((hopTrace pC1).head? = some HopEvent.abortPrevious
        ∧ ∀ i e, (hopTrace pC1).get? i = some e → isSuspend e = true → 0 < i)
      ∧ ((afterStarts 3).current = some 2
        ∧ ∀ k, k < 2 → k ∈ (afterStarts 3).cancelled)) :=
  ⟨rfl, c1_cancel_before_suspend pC1 rfl 2⟩

/-- C6 counterexample URL: origin page carrying a fragment. -/
def fromC6 : Url := { origin := "https://example.test", pathname := "/a", search := "", hash := "#x" }

/-- C6 counterexample URL: same page with the fragment removed. -/
def toC6 : Url := { origin := "https://example.test", pathname := "/a", search := "", hash := "" }

/-- C6 counterexample parameters: forward navigation on the same page that
merely removes the fragment, no body. -/
def pC6 : HopParams :=
  { hasPrevController := false, enabledDoc := true, sameOrigin := true,
    fromUrl := fromC6, toUrl := toC6, hasBody := false,
    direction := Direction.forward, isTraverse := false,
    configAllowed := true, fetchSucceeds := true, hasPreloads := false }

/-- C6 counterexample: a same-page, body-less navigation in which only the
fragment changes (it is removed going forward) still performs a fetch — the
trace contains the fetch suspension. This refutes the claim that every
fragment-present-or-removed same-page navigation skips the fetch. -/
theorem c6_counterexample :
    samePage fromC6 toC6 = true ∧ pC6.hasBody = false
      ∧ fromC6.hash = "#x" ∧ toC6.hash = ""
      ∧ HopEvent.suspendFetch ∈ hopTrace pC6 := by
  refine ⟨by decide, rfl, rfl, rfl, by decide⟩

/-- C6 amended: the fetch is skipped exactly for same-page, body-less
navigations where a non-back navigation has a destination fragment or a back
navigation leaves a URL with a fragment; in that case hop goes straight to the
history/scroll update after the scroll save, with no fetch, no transition and
no swap. (A forward same-page navigation that merely removes the fragment
does fetch.) -/
theorem c6_hash_skip (p : HopParams) (h1 : p.enabledDoc = true)
    (h2 : p.sameOrigin = true) (h3 : hopSkipsFetch p = true) :
    hopTrace p =
      (if p.hasPrevController then [HopEvent.abortPrevious] else []) ++
        HopEvent.installController ::
          ((if p.isTraverse then [] else [HopEvent.saveScroll]) ++
            [HopEvent.historyScrollUpdate])
    ∧ HopEvent.suspendFetch ∉ hopTrace p
    ∧ HopEvent.startTransition ∉ hopTrace p
    ∧ HopEvent.swapDom ∉ hopTrace p := by
  have htr : hopTrace p =
      (if p.hasPrevController then [HopEvent.abortPrevious] else []) ++
        HopEvent.installController ::
          ((if p.isTraverse then [] else [HopEvent.saveScroll]) ++
            [HopEvent.historyScrollUpdate]) := by
    simp [hopTrace, hopTraceMain, h1, h2, h3]
  refine ⟨htr, ?_, ?_, ?_⟩ <;>
    · rw [htr]
      rcases p.hasPrevController with _ | _ <;> rcases p.isTraverse with _ | _ <;> simp

/-- Parameters for the C6 witness: forward same-page navigation gaining a
fragment. -/
def pC6w : HopParams :=
  { hasPrevController := false, enabledDoc := true, sameOrigin := true,
    fromUrl := toC6, toUrl := fromC6, hasBody := false,
    direction := Direction.forward, isTraverse := false,
    configAllowed := true, fetchSucceeds := true, hasPreloads := false }

/-- C6 witness. -/
theorem c6_hash_skip_witness :
    (pC6w.enabledDoc = true ∧ pC6w.sameOrigin = true ∧ hopSkipsFetch pC6w = true)
    ∧ (hopTrace pC6w =
        (if pC6w.hasPrevController then [HopEvent.abortPrevious] else []) ++
          HopEvent.installController ::
            ((if pC6w.isTraverse then [] else [HopEvent.saveScroll]) ++
              [HopEvent.historyScrollUpdate])
      ∧ HopEvent.suspendFetch ∉ hopTrace pC6w
      ∧ HopEvent.startTransition ∉ hopTrace pC6w
      ∧ HopEvent.swapDom ∉ hopTrace pC6w) :=
  ⟨⟨rfl, rfl, by decide⟩, c6_hash_skip pC6w rfl rfl (by decide)⟩

/-! ## C7: body swap with persisted elements (index.ts swapBodyElement)

A body is a list of elements; an element has a node identity (platform object
identity), the persistence-marker value, and its content (standing for live
runtime state). After the wholesale body replacement, each outgoing persisted
element replaces the first element with the same marker value in the new body.
-/

/-- An element of a body: platform node identity, persistence-marker value,
and content standing for its live state. -/
structure BodyEl where
  nodeId : Nat
  persist : Option String
  content : String
  deriving DecidableEq, Repr

/-- querySelector for the marker value followed by replaceWith: replace the
first element whose marker value matches, leave the body unchanged otherwise. -/
def replaceFirstPersist : List BodyEl → String → BodyEl → List BodyEl
  | [], _, _ => []
  | x :: xs, pid, el =>
    if x.persist = some pid then el :: xs else x :: replaceFirstPersist xs pid el

/-- One iteration of the persistence loop of swapBodyElement. -/
def persistStep (acc : List BodyEl) (el : BodyEl) : List BodyEl :=
  match el.persist with
  | some pid => replaceFirstPersist acc pid el
  | none => acc

/-- querySelectorAll for the persistence marker on the outgoing body. -/
def persistedEls (body : List BodyEl) : List BodyEl :=
  body.filter (fun e => e.persist.isSome)

/-- swapBodyElement from index.ts: the new body is installed wholesale, then
each outgoing persisted element replaces its same-marker placeholder. -/
def swapBodyElement (oldBody newBody : List BodyEl) : List BodyEl :=
  (persistedEls oldBody).foldl persistStep newBody

/-- The marker values carried by a list of elements. -/
def persistIds (l : List BodyEl) : List String :=
  l.filterMap (fun e => e.persist)

/-- When no element matches the marker, the replacement leaves the body
unchanged. -/
theorem replaceFirst_no_match (body : List BodyEl) (pid : String) (el : BodyEl)
    (h : ∀ x ∈ body, x.persist ≠ some pid) :
    replaceFirstPersist body pid el = body := by
  induction body with
  | nil => rfl
  | cons x xs ih =>
    have hx : x.persist ≠ some pid := h x (by simp)
    simp only [replaceFirstPersist, if_neg hx]
    rw [ih (fun y hy => h y (by simp [hy]))]

/-- Membership of a non-matching element survives the replacement. -/
theorem mem_replaceFirst_of_ne (body : List BodyEl) (pid : String) (el y : BodyEl)
    (hy : y ∈ body) (hne : y.persist ≠ some pid) :
    y ∈ replaceFirstPersist body pid el := by
  induction body with
  | nil => simp at hy
  | cons x xs ih =>
    by_cases hx : x.persist = some pid
    · simp only [replaceFirstPersist, if_pos hx]
      rcases List.mem_cons.mp hy with h | h
      · exact absurd (h.symm ▸ hx) hne
      · exact List.mem_cons_of_mem el h
    · simp only [replaceFirstPersist, if_neg hx]
      rcases List.mem_cons.mp hy with h | h
      · rw [h]; exact List.mem_cons_self x _
      · exact List.mem_cons_of_mem x (ih h)

/-- When some element matches the marker, the moved element is in the result. -/
theorem el_mem_replaceFirst (body : List BodyEl) (pid : String) (el : BodyEl)
    (h : ∃ x ∈ body, x.persist = some pid) :
    el ∈ replaceFirstPersist body pid el := by
  induction body with
  | nil =>
    rcases h with ⟨x, hx, _⟩
    simp at hx
  | cons a xs ih =>
    by_cases ha : a.persist = some pid
    · simp only [replaceFirstPersist, if_pos ha]
      exact List.mem_cons_self el xs
    · rcases h with ⟨x, hx, hxp⟩
      rcases List.mem_cons.mp hx with h1 | h1
      · exact absurd (h1 ▸ hxp) ha
      · simp only [replaceFirstPersist, if_neg ha]
        exact List.mem_cons_of_mem a (ih ⟨x, h1, hxp⟩)

/-- Elements of the replaced body come from the body or are the moved element. -/
theorem mem_of_mem_replaceFirst (body : List BodyEl) (pid : String) (el z : BodyEl)
    (hz : z ∈ replaceFirstPersist body pid el) : z ∈ body ∨ z = el := by
  induction body with
  | nil => simp [replaceFirstPersist] at hz
  | cons a xs ih =>
    by_cases ha : a.persist = some pid
    · rw [show replaceFirstPersist (a :: xs) pid el = el :: xs from by
        simp only [replaceFirstPersist, if_pos ha]] at hz
      rcases List.mem_cons.mp hz with h | h
      · exact Or.inr h
      · exact Or.inl (List.mem_cons_of_mem a h)
    · rw [show replaceFirstPersist (a :: xs) pid el = a :: replaceFirstPersist xs pid el from by
        simp only [replaceFirstPersist, if_neg ha]] at hz
      rcases List.mem_cons.mp hz with h | h
      · exact Or.inl (by rw [h]; exact List.mem_cons_self a xs)
      · rcases ih h with h2 | h2
        · exact Or.inl (List.mem_cons_of_mem a h2)
        · exact Or.inr h2

/-- The replacement preserves, for every marker value, the number of elements
carrying it (the placeholder is removed, the moved element takes its place). -/
theorem countP_replaceFirst (body : List BodyEl) (pid : String) (el : BodyEl) (i : String)
    (hel : el.persist = some pid) :
    (replaceFirstPersist body pid el).countP (fun x => x.persist == some i)
      = body.countP (fun x => x.persist == some i) := by
  induction body with
  | nil => rfl
  | cons a xs ih =>
    by_cases ha : a.persist = some pid
    · simp only [replaceFirstPersist, if_pos ha, List.countP_cons]
      have hsame : (el.persist == some i) = (a.persist == some i) := by rw [hel, ha]
      rw [hsame]
    · simp only [replaceFirstPersist, if_neg ha, List.countP_cons, ih]

/-- An element already installed survives the remaining loop iterations when
none of them carries its marker value. -/
theorem mem_foldl_of_no_id (L : List BodyEl) (acc : List BodyEl) (el : BodyEl) (i : String)
    (hel : el.persist = some i) (hL : ∀ b ∈ L, b.persist ≠ some i) (hacc : el ∈ acc) :
    el ∈ L.foldl persistStep acc := by
  induction L generalizing acc with
  | nil => simpa using hacc
  | cons b L2 ih =>
    rw [List.foldl_cons]
    refine ih _ (fun c hc => hL c (by simp [hc])) ?_
    cases hb : b.persist with
    | none => simpa [persistStep, hb] using hacc
    | some jb =>
      have hne : el.persist ≠ some jb := by
        rw [hel]
        intro hcon
        exact hL b (by simp) (by rw [hb, (Option.some.inj hcon)])
      simp only [persistStep, hb]
      exact mem_replaceFirst_of_ne acc jb b el hacc hne

/-- When the accumulated body contains an element with the marker value of a
loop element, that loop element ends up in the final body. The marker values
of the loop elements are assumed pairwise distinct. -/
theorem mem_foldl_of_match (L : List BodyEl) (acc : List BodyEl) (el : BodyEl) (i : String)
    (hmem : el ∈ L) (hel : el.persist = some i) (hnd : (persistIds L).Nodup)
    (hex : ∃ x ∈ acc, x.persist = some i) :
    el ∈ L.foldl persistStep acc := by
  induction L generalizing acc with
  | nil => simp at hmem
  | cons a L2 ih =>
    rw [List.foldl_cons]
    by_cases hae : a = el
    · subst hae
      have hstep : persistStep acc a = replaceFirstPersist acc i a := by
        simp [persistStep, hel]
      rw [hstep]
      have hin : a ∈ replaceFirstPersist acc i a := el_mem_replaceFirst acc i a hex
      have hids : persistIds (a :: L2) = i :: persistIds L2 := by
        simp [persistIds, List.filterMap_cons, hel]
      rw [hids] at hnd
      have hNoId : ∀ b ∈ L2, b.persist ≠ some i := by
        intro b hb hcon
        exact (List.nodup_cons.mp hnd).1 (List.mem_filterMap.mpr ⟨b, hb, hcon⟩)
      exact mem_foldl_of_no_id L2 _ a i hel hNoId hin
    · have hmem2 : el ∈ L2 := by
        rcases List.mem_cons.mp hmem with h | h
        · exact absurd h.symm hae
        · exact h
      cases ha : a.persist with
      | none =>
        have hnd2 : (persistIds L2).Nodup := by
          have hids : persistIds (a :: L2) = persistIds L2 := by
            simp [persistIds, List.filterMap_cons, ha]
          rwa [hids] at hnd
        have hstep : persistStep acc a = acc := by simp [persistStep, ha]
        rw [hstep]
        exact ih acc hmem2 hnd2 hex
      | some ja =>
        have hids : persistIds (a :: L2) = ja :: persistIds L2 := by
          simp [persistIds, List.filterMap_cons, ha]
        rw [hids] at hnd
        have hnd2 := (List.nodup_cons.mp hnd).2
        have hja : ja ≠ i := by
          intro hcon
          apply (List.nodup_cons.mp hnd).1
          rw [hcon]
          exact List.mem_filterMap.mpr ⟨el, hmem2, hel⟩
        rcases hex with ⟨x, hx, hxp⟩
        have hxne : x.persist ≠ some ja := by
          rw [hxp]
          intro hcon
          exact hja (Option.some.inj hcon).symm
        have hstep : persistStep acc a = replaceFirstPersist acc ja a := by
          simp [persistStep, ha]
        rw [hstep]
        exact ih _ hmem2 hnd2 ⟨x, mem_replaceFirst_of_ne acc ja a x hx hxne, hxp⟩

/-- When the accumulated body has no element with a given marker value, the
loop never introduces one: a persisted element without a placeholder is
discarded. -/
theorem foldl_no_id (L : List BodyEl) (acc : List BodyEl) (i : String)
    (hacc : ∀ x ∈ acc, x.persist ≠ some i) :
    ∀ x ∈ L.foldl persistStep acc, x.persist ≠ some i := by
  induction L generalizing acc with
  | nil => simpa using hacc
  | cons a L2 ih =>
    rw [List.foldl_cons]
    apply ih
    intro x hx
    cases ha : a.persist with
    | none =>
      have hstep : persistStep acc a = acc := by simp [persistStep, ha]
      rw [hstep] at hx
      exact hacc x hx
    | some ja =>
      have hstep : persistStep acc a = replaceFirstPersist acc ja a := by
        simp [persistStep, ha]
      rw [hstep] at hx
      by_cases hji : ja = i
      · subst hji
        rw [replaceFirst_no_match acc ja a hacc] at hx
        exact hacc x hx
      · rcases mem_of_mem_replaceFirst acc ja a x hx with h | h
        · exact hacc x h
        · rw [h, ha]
          intro hcon
          exact hji (Option.some.inj hcon)

/-- The loop preserves, per marker value, the number of elements carrying it. -/
theorem countP_foldl (L : List BodyEl) (acc : List BodyEl) (i : String) :
    (L.foldl persistStep acc).countP (fun x => x.persist == some i)
      = acc.countP (fun x => x.persist == some i) := by
  induction L generalizing acc with
  | nil => rfl
  | cons a L2 ih =>
    rw [List.foldl_cons, ih]
    cases ha : a.persist with
    | none => simp [persistStep, ha]
    | some ja =>
      simp only [persistStep, ha]
      exact countP_replaceFirst acc ja a i ha

/-- C7: for an outgoing body element carrying the persistence marker (marker
values of the outgoing persisted elements pairwise distinct): when the new
body has an element with the same marker value, the original element itself —
with its node identity and content, i.e. its live state, not a clone — is in
the swapped body; when no such element exists, the original is discarded (the
swapped body has no element with that marker value, in particular not the
original); and per marker value the number of slots is preserved (each
placeholder is replaced, not duplicated). -/
theorem c7_persist_swap (oldBody newBody : List BodyEl) (el : BodyEl) (i : String)
    (h1 : el ∈ oldBody) (h2 : el.persist = some i)
    (h3 : (persistIds (persistedEls oldBody)).Nodup) :
    ((∃ x ∈ newBody, x.persist = some i) → el ∈ swapBodyElement oldBody newBody)
    ∧ ((∀ x ∈ newBody, x.persist ≠ some i) → el ∉ swapBodyElement oldBody newBody)
    ∧ (∀ j, (swapBodyElement oldBody newBody).countP (fun x => x.persist == some j)
        = newBody.countP (fun x => x.persist == some j)) := by
  have hmemP : el ∈ persistedEls oldBody := by
    rw [persistedEls, List.mem_filter]
    exact ⟨h1, by rw [h2]; rfl⟩
  refine ⟨?_, ?_, ?_⟩
  · intro hex
    exact mem_foldl_of_match (persistedEls oldBody) newBody el i hmemP h2 h3 hex
  · intro hno hmem
    exact foldl_no_id (persistedEls oldBody) newBody i hno el hmem h2
  · intro j
    exact countP_foldl (persistedEls oldBody) newBody j

/-- The live element of the C7 witness (a playing audio element, say). -/
def elC7 : BodyEl := { nodeId := 1, persist := some "player", content := "playing audio" }

/-- Outgoing body for the C7 witness. -/
def oldBodyC7 : List BodyEl :=
  [{ nodeId := 0, persist := none, content := "old text" }, elC7]

/-- Incoming body for the C7 witness: a placeholder with the same marker. -/
def newBodyC7 : List BodyEl :=
  [{ nodeId := 7, persist := some "player", content := "placeholder" },
    { nodeId := 8, persist := none, content := "new text" }]

/-- C7 witness. -/
theorem c7_persist_swap_witness :
    (elC7 ∈ oldBodyC7 ∧ elC7.persist = some "player"
      ∧ (persistIds (persistedEls oldBodyC7)).Nodup)
    ∧ ((∃ x ∈ newBodyC7, x.persist = some "player") →
        elC7 ∈ swapBodyElement oldBodyC7 newBodyC7)
    ∧ ((∀ x ∈ newBodyC7, x.persist ≠ some "player") →
        elC7 ∉ swapBodyElement oldBodyC7 newBodyC7)
    ∧ (∀ j, (swapBodyElement oldBodyC7 newBodyC7).countP (fun x => x.persist == some j)
        = newBodyC7.countP (fun x => x.persist == some j)) := by
  have h := c7_persist_swap oldBodyC7 newBodyC7 elC7 "player"
    (by decide) rfl (by decide)
  exact ⟨⟨by decide, rfl, by decide⟩, h.1, h.2.1, h.2.2⟩

end Grasshopper

